import Mathlib

/-!
Verification of the `next-themes` theme-switching utility (src/index.tsx).

JavaScript strings are modelled as `List Char` (`Str`); JavaScript values that
may be `null`/`undefined` are modelled as `Option Str`, with JS truthiness
(`null`, `undefined` and the empty string are falsy) captured by `truthy`.
The document root is modelled by `DomState`: its class list, the value of the
configured theme attribute, and the inline `color-scheme` style together with
a counter of how many times that style has been assigned.

`applyTheme`, `setTheme`, `handleStorage`, `getTheme`, `getResolvedTheme`,
`getColorScheme`, `getSystemTheme` and `providerThemes` are direct
translations of the functions of the same names in the source.  The inline
script emitted by `ThemeScript` is embedded by its effect: `runScript` (with
helpers `runUpdateDOM`, `runLiteralWrite`, `fallbackColorScheme`) executes the
statements the generator emits for a given configuration, persisted value and
dark-mode media-query state, including the try/catch that swallows exceptions
(a thrown `classList.add('')` stops the script but keeps earlier writes).
-/

abbrev Str := List Char

def str (s : String) : Str := s.toList

/-- JS truthiness of a nullable string: `null`/`undefined`/`''` are falsy. -/
def truthy : Option Str → Bool
  | some (_ :: _) => true
  | _ => false

/-- JS `v || dflt` for a nullable string `v` and a string `dflt`. -/
def jsOr (v : Option Str) (dflt : Str) : Str :=
  match v with
  | some s => if s = [] then dflt else s
  | none => dflt

/-- Lookup in a JS object used as a string-to-string map (the `value` prop). -/
def lookupMap (m : List (Str × Str)) (k : Str) : Option Str :=
  (m.find? (fun e => e.1 == k)).map (·.2)

/-- `const colorSchemes = ['light', 'dark']` -/
def colorSchemes : List Str := [str "light", str "dark"]

/-- Configuration of the provider (the props of `Theme` after defaulting). -/
structure Config where
  enableSystem : Bool
  enableMultipleSystemThemes : Bool
  enableColorScheme : Bool
  /-- the `attribute` prop: `'class'` or an attribute name such as `'data-theme'` -/
  attrName : Str
  /-- the optional `value` map, as an insertion-ordered association list -/
  value : Option (List (Str × Str))
  defaultTheme : Str
  themes : List Str
deriving Repr, DecidableEq

/-- `const attrs = value ? Object.values(value) : themes` -/
def attrsOf (cfg : Config) : List Str :=
  match cfg.value with
  | some m => m.map (·.2)
  | none => cfg.themes

/-- State of the document root. `csWrites` counts assignments to
`documentElement.style.colorScheme` (an assignment of `null` clears it). -/
structure DomState where
  classes : List Str
  attrVal : Option Str
  colorScheme : Option Str
  csWrites : Nat
deriving Repr, DecidableEq

def pristine : DomState := ⟨[], none, none, 0⟩

/-- `classList.add`: a no-op when the token is already present. -/
def classAdd (cs : List Str) (c : Str) : List Str :=
  if c ∈ cs then cs else cs ++ [c]

/-- `classList.remove(...attrs)` -/
def classRemoveAll (cs : List Str) (toRemove : List Str) : List Str :=
  cs.filter (fun c => !(toRemove.contains c))

/-- `getSystemTheme`: `e.matches ? 'dark' : 'light'` for the dark-mode query. -/
def getSystemTheme (dark : Bool) : Str :=
  if dark then str "dark" else str "light"

/-- `getColorScheme(theme, fallback = null)` -/
def getColorScheme (theme : Str) (fallback : Option Str) : Option Str :=
  if theme = str "light" ∨ (str "light-").isPrefixOf theme then some (str "light")
  else if theme = str "dark" ∨ (str "dark-").isPrefixOf theme then some (str "dark")
  else if colorSchemes.contains theme then some theme
  else fallback

/-- The resolution step of `applyTheme` (its first `if (enableSystem)` block):
`'system'` resolves via the media query, and with
`enableMultipleSystemThemes` a `'system-'` preference resolves to the system
light/dark name followed by `theme.substring(6)`. -/
def resolveTheme (cfg : Config) (dark : Bool) (theme : Str) : Str :=
  if cfg.enableSystem then
    if theme = str "system" then getSystemTheme dark
    else if cfg.enableMultipleSystemThemes && (str "system-").isPrefixOf theme then
      getSystemTheme dark ++ theme.drop 6
    else theme
  else theme

/-- `const name = value ? value[resolved] : resolved` (also the first line of
the script generator's `updateDOM`). -/
def domName (cfg : Config) (resolved : Str) : Option Str :=
  match cfg.value with
  | some m => lookupMap m resolved
  | none => some resolved

/-- The attribute/class write of `applyTheme` (its `if (attribute === 'class')`
block): in class mode all known attribute values are removed and the truthy
name is added; otherwise the attribute is set to the name or removed. -/
def writeRootApply (cfg : Config) (name : Option Str) (d : DomState) : DomState :=
  if cfg.attrName = str "class" then
    let cs := classRemoveAll d.classes (attrsOf cfg)
    if truthy name then { d with classes := classAdd cs (name.getD []) }
    else { d with classes := cs }
  else
    if truthy name then { d with attrVal := some (name.getD []) }
    else { d with attrVal := none }

/-- `applyTheme` of the provider, as a transformer of the document root.
`theme` is the (possibly undefined) theme string it is called with and `dark`
is the state of the dark-mode media query. -/
def applyTheme (cfg : Config) (dark : Bool) (theme : Option Str) (d : DomState) : DomState :=
  match theme with
  | none => d
  | some t =>
    if t = [] then d
    else
      let resolved := resolveTheme cfg dark t
      let d1 := writeRootApply cfg (domName cfg resolved) d
      if cfg.enableColorScheme then
        { d1 with
          colorScheme := getColorScheme resolved (getColorScheme cfg.defaultTheme none),
          csWrites := d1.csWrites + 1 }
      else d1

/-- `getTheme(key, fallback)`: `stored` is what `localStorage.getItem(key)`
returns; `avail = false` models storage access throwing (the catch leaves
`theme` undefined). -/
def getTheme (isServer avail : Bool) (stored : Option Str) (fallback : Option Str) : Option Str :=
  if isServer then none
  else
    let theme : Option Str := if avail then (if truthy stored then stored else none) else none
    if truthy theme then theme else fallback

/-- `getResolvedTheme(key, fallback, enableMultipleSystemThemes)` -/
def getResolvedTheme (isServer avail : Bool) (stored fallback : Option Str)
    (eMST : Bool) (dark : Bool) : Option Str :=
  let theme := getTheme isServer avail stored fallback
  if ¬ truthy theme then none
  else
    let t := theme.getD []
    if t = str "system" then some (getSystemTheme dark)
    else if eMST && (str "system-").isPrefixOf t then some (getSystemTheme dark ++ t.drop 6)
    else theme

/-- Client-side storage: a map from keys to stored strings. -/
def setItem (σ : Str → Option Str) (key v : Str) : Str → Option Str :=
  fun k => if k = key then some v else σ k

/-- `setTheme` of the provider: updates the in-memory state, then tries to
persist under the storage key (a throwing `setItem` is swallowed).  Returns
the new in-memory theme state and the new storage contents. -/
def setTheme (storageKey : Str) (avail : Bool) (theme : Str)
    (σ : Str → Option Str) : Str × (Str → Option Str) :=
  (theme, if avail then setItem σ storageKey theme else σ)

/-- `handleStorage`: the `storage` event handler.  `eventKey` is `e.key`
(`null` for `storage.clear()`), `newValue` is `e.newValue`, `st` the current
in-memory theme state. -/
def handleStorage (storageKey defaultTheme : Str) (avail : Bool)
    (eventKey : Option Str) (newValue : Option Str) (st : Str)
    (σ : Str → Option Str) : Str × (Str → Option Str) :=
  if eventKey ≠ some storageKey then (st, σ)
  else
    let theme := jsOr newValue defaultTheme
    setTheme storageKey avail theme σ

/-! ### The inline script emitted by `ThemeScript`

The generator builds a script string; the definitions below embed the
behaviour of that script when the browser executes it.  `updateDOM(name)`
(non-literal) emits a `colorScheme` assignment when `name` is `'light'` or
`'dark'` and `setColorScheme` holds, followed by a class add / attribute set
of `value ? value[name] : name` when that is truthy.  The literal call
`updateDOM(value ? ` `x[e]` ` : 'e', true)` passes the *text* of a JS
expression as `name`, so the generator's `value[name]` looks up the literal
string `'x[e]'`; the emitted statement then evaluates `x[e] || ''` (resp.
`e || ''`) at run time.  `classList.add('')` throws, which the surrounding
try/catch swallows, ending the script. -/

/-- Effect of the statements emitted by `updateDOM(name, false, setColorScheme)`. -/
def runUpdateDOM (cfg : Config) (name : Str) (setColorScheme : Bool) (d : DomState) : DomState :=
  let resolvedName := domName cfg name
  let d :=
    if cfg.enableColorScheme && setColorScheme && colorSchemes.contains name then
      { d with colorScheme := some name, csWrites := d.csWrites + 1 }
    else d
  if cfg.attrName = str "class" then
    if truthy resolvedName then { d with classes := classAdd d.classes (resolvedName.getD []) }
    else d
  else
    if truthy resolvedName then { d with attrVal := some (resolvedName.getD []) }
    else d

/-- Effect of the statements emitted by the literal `updateDOM` call, given the
truthy stored value `e`.  Returns the new state and whether an exception was
thrown (only `classList.add('')` throws). -/
def runLiteralWrite (cfg : Config) (e : Str) (d : DomState) : DomState × Bool :=
  match cfg.value with
  | some m =>
    if cfg.attrName = str "class" then
      -- emitted statement: c.add(x[e] || '')
      match lookupMap m e with
      | some v => if v = [] then (d, true) else ({ d with classes := classAdd d.classes v }, false)
      | none => (d, true)
    else
      -- the generator guards on value['x[e]'] being truthy before emitting
      -- d[s](n, x[e] || '')
      if truthy (lookupMap m (str "x[e]")) then
        ({ d with attrVal := some (jsOr (lookupMap m e) []) }, false)
      else (d, false)
  | none =>
    if cfg.attrName = str "class" then
      -- emitted statement: c.add(e || '')
      if e = [] then (d, true) else ({ d with classes := classAdd d.classes e }, false)
    else
      -- emitted statement: d[s](n, e || '')
      ({ d with attrVal := some (if e = [] then [] else e) }, false)

/-- Effect of the trailing `fallbackColorScheme` statement of the script. -/
def fallbackColorScheme (cfg : Config) (e : Option Str) (d : DomState) : DomState :=
  if !cfg.enableColorScheme then d
  else if colorSchemes.contains cfg.defaultTheme then
    -- if (e==='light' || e==='dark' || !e) d.style.colorScheme = e || defaultTheme
    if e = some (str "light") ∨ e = some (str "dark") ∨ ¬ truthy e then
      { d with colorScheme := some (jsOr e cfg.defaultTheme), csWrites := d.csWrites + 1 }
    else d
  else
    -- if (e==='light' || e==='dark') d.style.colorScheme = e
    if e = some (str "light") ∨ e = some (str "dark") then
      { d with colorScheme := some (e.getD []), csWrites := d.csWrites + 1 }
    else d

/-- The class-mode `optimization` prelude removes all known attribute values. -/
def runOptimization (cfg : Config) (d : DomState) : DomState :=
  if cfg.attrName = str "class" then { d with classes := classRemoveAll d.classes (attrsOf cfg) }
  else d

/-- Effect of executing the whole script `ThemeScript.scriptSrc` emits, for a
forced theme, the `localStorage` contents at the storage key (`stored`, with
`avail = false` when `getItem` throws) and the dark-mode media query state.
A supported media query is assumed, so `m.media !== t || m.matches` is
`dark`. -/
def runScript (cfg : Config) (forced : Option Str) (avail : Bool)
    (stored : Option Str) (dark : Bool) (d : DomState) : DomState :=
  if truthy forced then
    -- no try/catch and no storage read in the forced-theme script
    runUpdateDOM cfg (forced.getD []) true (runOptimization cfg d)
  else
    let d0 := runOptimization cfg d
    if !avail then d0  -- getItem throws; the catch swallows it
    else
      let e := stored
      if cfg.enableSystem then
        if e = some (str "system") ∨ (¬ truthy e ∧ cfg.defaultTheme = str "system") then
          fallbackColorScheme cfg e (runUpdateDOM cfg (getSystemTheme dark) true d0)
        else if truthy e then
          match runLiteralWrite cfg (e.getD []) d0 with
          | (d1, true) => d1
          | (d1, false) => fallbackColorScheme cfg e d1
        else
          fallbackColorScheme cfg e (runUpdateDOM cfg cfg.defaultTheme false d0)
      else
        if truthy e then
          match runLiteralWrite cfg (e.getD []) d0 with
          | (d1, true) => d1
          | (d1, false) => fallbackColorScheme cfg e d1
        else
          fallbackColorScheme cfg e (runUpdateDOM cfg cfg.defaultTheme false d0)

/-! ### `providerThemes` -/

/-- `Set.add` semantics: insertion-ordered, skipping already-present items. -/
def addIfAbsent (l : List Str) (x : Str) : List Str :=
  if x ∈ l then l else l ++ [x]

/-- `new Set(themes)` read back in insertion order. -/
def dedup (l : List Str) : List Str := l.foldl addIfAbsent []

/-- The `key` computed for a theme inside the `enableMultipleSystemThemes`
loop: `''` for `'light'`/`'dark'`, `theme.substring(theme.indexOf('-'))` for
`'light-'`/`'dark-'` prefixes (the first dash of such a theme is the one
after `light`/`dark`), undefined otherwise. -/
def keyOf (t : Str) : Option Str :=
  let k : Option Str := if t = str "light" || t = str "dark" then some [] else none
  if (str "light-").isPrefixOf t || (str "dark-").isPrefixOf t then
    some (t.dropWhile (fun c => c ≠ '-'))
  else k

/-- `theme === 'light' || theme.startsWith('light-')` -/
def isLightSide (t : Str) : Bool := t = str "light" || (str "light-").isPrefixOf t

/-- `theme === 'dark' || theme.startsWith('dark-')` -/
def isDarkSide (t : Str) : Bool := t = str "dark" || (str "dark-").isPrefixOf t

/-- Setting a flag of the record entry for `key` (creating the entry first
when absent), as the loop body does. -/
def updateEntry : List (Str × Bool × Bool) → Str → Bool → Bool → List (Str × Bool × Bool)
  | [], k, lf, df => [(k, lf, df)]
  | e :: rest, k, lf, df =>
    if e.1 = k then (k, e.2.1 || lf, e.2.2 || df) :: rest
    else e :: updateEntry rest k lf df

/-- The `maybeSystemThemes` record after the loop over `themes`. -/
def collectSystemFlags (themes : List Str) : List (Str × Bool × Bool) :=
  themes.foldl
    (fun acc t =>
      match keyOf t with
      | none => acc
      | some k => updateEntry acc k (isLightSide t) (isDarkSide t))
    []

/-- `systemThemes`: the keys whose entries have both flags set. -/
def systemSuffixes (themes : List Str) : List Str :=
  ((collectSystemFlags themes).filter (fun e => e.2.1 && e.2.2)).map (·.1)

/-- The provider's published `themes` collection (`providerThemes` memo). -/
def providerThemes (enableSystem eMST : Bool) (themes : List Str) : List Str :=
  if !enableSystem then themes
  else
    let s := addIfAbsent (dedup themes) (str "system")
    if eMST then
      (systemSuffixes themes).foldl (fun s k => addIfAbsent s (str "system" ++ k)) s
    else s

/-! ### Context, `useTheme` and nested providers -/

/-- The context value consumed through `useTheme`.  `setThemeFn` is modelled
as a transformer of the pair (in-memory theme state, storage contents). -/
structure UseThemeProps where
  themes : List Str
  setThemeFn : Str → (Str × (Str → Option Str)) → Str × (Str → Option Str)
  theme : Option Str
  resolvedTheme : Option Str

/-- `const defaultContext = { setTheme: _ => {}, themes: [] }` -/
def defaultContext : UseThemeProps :=
  { themes := [], setThemeFn := fun _ st => st, theme := none, resolvedTheme := none }

/-- `useTheme = () => useContext(ThemeContext) ?? defaultContext` -/
def useTheme (ctx : Option UseThemeProps) : UseThemeProps :=
  ctx.getD defaultContext

/-- A fragment of rendered output, enough to count theme state containers and
inline scripts below a point of the tree. -/
inductive RenderTree where
  | leaf (id : Nat)
  | fragmentNode (child : RenderTree)
  | providerNode (publishedThemes : List Str) (hasScript : Bool) (child : RenderTree)
deriving Repr, DecidableEq

/-- `ThemeProvider`: with an ambient context it renders a fragment holding the
children unchanged; otherwise it renders the `Theme` container (context
provider plus inline script) around them. -/
def renderThemeProvider (ctx : Option UseThemeProps) (cfg : Config)
    (children : RenderTree) : RenderTree :=
  match ctx with
  | some _ => .fragmentNode children
  | none =>
    .providerNode
      (providerThemes cfg.enableSystem cfg.enableMultipleSystemThemes cfg.themes)
      true children

def scriptCount : RenderTree → Nat
  | .leaf _ => 0
  | .fragmentNode c => scriptCount c
  | .providerNode _ hasScript c => (if hasScript then 1 else 0) + scriptCount c

def providerCount : RenderTree → Nat
  | .leaf _ => 0
  | .fragmentNode c => providerCount c
  | .providerNode _ _ c => 1 + providerCount c

/-- The context the children of a rendered node observe, given the context
that was in scope at the node itself. -/
def contextForChildren (incoming : Option UseThemeProps) : RenderTree → Option UseThemeProps
  | .leaf _ => incoming
  | .fragmentNode _ => incoming
  | .providerNode ts _ _ =>
    some { themes := ts, setThemeFn := fun _ st => st, theme := none, resolvedTheme := none }

/-! ### Helper lemmas -/

theorem truthy_some_cons (c : Char) (cs : Str) : truthy (some (c :: cs)) = true := rfl

theorem truthy_some_true_iff (t : Str) : truthy (some t) = true ↔ t ≠ [] := by
  cases t <;> simp [truthy]

theorem getTheme_client (stored fallback : Option Str) :
    getTheme false true stored fallback = if truthy stored then stored else fallback := by
  cases stored with
  | none => rfl
  | some t => cases t <;> rfl

theorem contains_eq_mem (l : List Str) (a : Str) : l.contains a = true ↔ a ∈ l := by
  simp [List.contains, List.elem_iff]

/-! ### Claims -/

/-- C6: a storage event for the configured key sets the in-memory theme state
to the event's new value, or to the default theme when the new value is null
or empty; events for any other key (including a null key) leave the state
unchanged. -/
theorem c6_storage_event_sync (storageKey defaultTheme : Str) (avail : Bool)
    (eventKey newValue : Option Str) (st : Str) (σ : Str → Option Str) :
    (eventKey = some storageKey → truthy newValue = true →
      (handleStorage storageKey defaultTheme avail eventKey newValue st σ).1 = newValue.getD [])
    ∧ (eventKey = some storageKey → truthy newValue = false →
      (handleStorage storageKey defaultTheme avail eventKey newValue st σ).1 = defaultTheme)
    ∧ (eventKey ≠ some storageKey →
      (handleStorage storageKey defaultTheme avail eventKey newValue st σ).1 = st) := by
  refine ⟨?_, ?_, ?_⟩
  · intro hk hv
    cases newValue with
    | none => simp [truthy] at hv
    | some s =>
      cases s with
      | nil => simp [truthy] at hv
      | cons c cs => simp [handleStorage, hk, jsOr, setTheme]
  · intro hk hv
    cases newValue with
    | none => simp [handleStorage, hk, jsOr, setTheme]
    | some s =>
      cases s with
      | nil => simp [handleStorage, hk, jsOr, setTheme]
      | cons c cs => simp [truthy] at hv
  · intro hk
    simp [handleStorage, hk]

theorem c6_witness :
    (handleStorage (str "theme") (str "light") true (some (str "theme"))
      (some (str "dark")) (str "old") (fun _ => none)).1 = str "dark"
    ∧ (handleStorage (str "theme") (str "light") true (some (str "theme"))
      none (str "old") (fun _ => none)).1 = str "light"
    ∧ (handleStorage (str "theme") (str "light") true (some (str "other"))
      (some (str "dark")) (str "old") (fun _ => none)).1 = str "old" :=
  ⟨(c6_storage_event_sync (str "theme") (str "light") true (some (str "theme"))
      (some (str "dark")) (str "old") (fun _ => none)).1 rfl (by decide),
   (c6_storage_event_sync (str "theme") (str "light") true (some (str "theme"))
      none (str "old") (fun _ => none)).2.1 rfl (by decide),
   (c6_storage_event_sync (str "theme") (str "light") true (some (str "other"))
      (some (str "dark")) (str "old") (fun _ => none)).2.2 (by decide)⟩

/-- C7: `setTheme` sets the in-memory state to the requested theme, persists
it under exactly the configured storage key, and leaves every other storage
entry unchanged; the result does not depend on the previous storage
contents beyond that key. -/
theorem c7_persist_under_single_key (storageKey theme : Str) (σ : Str → Option Str) :
    (setTheme storageKey true theme σ).1 = theme
    ∧ (setTheme storageKey true theme σ).2 storageKey = some theme
    ∧ (∀ k : Str, k ≠ storageKey → (setTheme storageKey true theme σ).2 k = σ k)
    ∧ (∀ σ₂ : Str → Option Str, (setTheme storageKey true theme σ₂).1 = theme) := by
  refine ⟨rfl, ?_, ?_, fun _ => rfl⟩
  · simp [setTheme, setItem]
  · intro k hk
    simp [setTheme, setItem, hk]

theorem c7_witness :
    (setTheme (str "theme") true (str "dark") (fun _ => none)).2 (str "other") = none :=
  (c7_persist_under_single_key (str "theme") (str "dark") (fun _ => none)).2.2.1
    (str "other") (by decide)

/-- C9: `useTheme` outside any provider returns the default context: empty
themes list and a `setTheme` that is the identity on the (state, storage)
pair, for every argument. -/
theorem c9_useTheme_outside_provider :
    useTheme none = defaultContext
    ∧ (useTheme none).themes = []
    ∧ ∀ (t : Str) (st : Str × (Str → Option Str)), (useTheme none).setThemeFn t st = st :=
  ⟨rfl, rfl, fun _ _ => rfl⟩

/-- C10: when storage throws, `setTheme` still updates the in-memory state to
the requested value and leaves storage untouched, and `getTheme` returns the
provided fallback instead of propagating the error. -/
theorem c10_storage_errors_swallowed (storageKey theme : Str) (σ : Str → Option Str)
    (stored fallback : Option Str) :
    (setTheme storageKey false theme σ).1 = theme
    ∧ (setTheme storageKey false theme σ).2 = σ
    ∧ getTheme false false stored fallback = fallback :=
  ⟨rfl, rfl, rfl⟩

/-- C8: a `ThemeProvider` rendered with an ambient theme context renders a
fragment holding its children unchanged, adds no theme state container and no
inline script, and its children observe the outer context. -/
theorem c8_nested_provider_passthrough (c : UseThemeProps) (ctx : Option UseThemeProps)
    (cfg : Config) (children : RenderTree) (h : ctx = some c) :
    renderThemeProvider ctx cfg children = .fragmentNode children
    ∧ scriptCount (renderThemeProvider ctx cfg children) = scriptCount children
    ∧ providerCount (renderThemeProvider ctx cfg children) = providerCount children
    ∧ contextForChildren ctx (renderThemeProvider ctx cfg children) = some c := by
  subst h
  exact ⟨rfl, rfl, rfl, rfl⟩

theorem c8_witness :
    renderThemeProvider (some defaultContext)
        ⟨true, false, true, str "data-theme", none, str "light", [str "light", str "dark"]⟩
        (.leaf 0) = .fragmentNode (.leaf 0)
    ∧ scriptCount (renderThemeProvider (some defaultContext)
        ⟨true, false, true, str "data-theme", none, str "light", [str "light", str "dark"]⟩
        (.leaf 0)) = scriptCount (.leaf 0)
    ∧ providerCount (renderThemeProvider (some defaultContext)
        ⟨true, false, true, str "data-theme", none, str "light", [str "light", str "dark"]⟩
        (.leaf 0)) = providerCount (.leaf 0)
    ∧ contextForChildren (some defaultContext) (renderThemeProvider (some defaultContext)
        ⟨true, false, true, str "data-theme", none, str "light", [str "light", str "dark"]⟩
        (.leaf 0)) = some defaultContext :=
  c8_nested_provider_passthrough defaultContext (some defaultContext)
    ⟨true, false, true, str "data-theme", none, str "light", [str "light", str "dark"]⟩
    (.leaf 0) rfl

/-- C2: the resolved theme is derived from the persisted preference as
follows: `'system'` resolves to `'dark'` when the dark-mode query matches and
`'light'` otherwise; with `enableMultipleSystemThemes`, a
`'system-<suffix>'` preference resolves to the system light/dark name with
`-<suffix>` appended; every other non-empty preference resolves to itself. -/
theorem c2_resolved_theme_derivation (stored fallback : Option Str) (eMST dark : Bool) :
    (getTheme false true stored fallback = some (str "system") →
      getResolvedTheme false true stored fallback eMST dark
        = some (if dark then str "dark" else str "light"))
    ∧ (∀ suf : Str, getTheme false true stored fallback = some (str "system-" ++ suf) →
        eMST = true →
        getResolvedTheme false true stored fallback eMST dark
          = some ((if dark then str "dark" else str "light") ++ str "-" ++ suf))
    ∧ (∀ t : Str, getTheme false true stored fallback = some t → t ≠ [] →
        t ≠ str "system" → ¬ (eMST = true ∧ (str "system-").isPrefixOf t = true) →
        getResolvedTheme false true stored fallback eMST dark = some t) := by
  refine ⟨?_, ?_, ?_⟩
  · intro h
    have hsys : str "system" = 's' :: 'y' :: 's' :: 't' :: 'e' :: 'm'::[] := rfl
    simp [getResolvedTheme, h, hsys, truthy, getSystemTheme]
  · intro suf h hm
    have hcons : str "system-" ++ suf = 's' :: 'y' :: 's' :: 't' :: 'e' :: 'm' :: '-'::suf := rfl
    simp only [getResolvedTheme, h, hcons]
    have hpre : (str "system-").isPrefixOf ('s' :: 'y' :: 's' :: 't' :: 'e' :: 'm' :: '-'::suf) = true := by
      rw [List.isPrefixOf_iff_prefix, ← hcons]
      exact List.prefix_append _ _
    simp [truthy, hm, hpre, getSystemTheme, str]
  · intro t h hne hnsys hnc
    have hb : (eMST && (str "system-").isPrefixOf t) = false := by
      cases hm : eMST <;> cases hp : (str "system-").isPrefixOf t <;> simp_all
    simp only [getResolvedTheme, h]
    have ht : truthy (some t) = true := (truthy_some_true_iff t).2 hne
    simp [ht, hnsys, hb]

theorem c2_witness :
    getResolvedTheme false true (some (str "system")) (some (str "light")) false true
      = some (str "dark")
    ∧ getResolvedTheme false true (some (str "system-a")) (some (str "light")) true false
      = some (str "light-a")
    ∧ getResolvedTheme false true (some (str "purple")) (some (str "light")) true true
      = some (str "purple") :=
  ⟨(c2_resolved_theme_derivation (some (str "system")) (some (str "light")) false true).1
      (by decide),
   (c2_resolved_theme_derivation (some (str "system-a")) (some (str "light")) true false).2.1
      (str "a") (by decide) rfl,
   (c2_resolved_theme_derivation (some (str "purple")) (some (str "light")) true true).2.2
      (str "purple") (by decide) (by decide) (by decide) (by decide)⟩

theorem filter_contains_classRemoveAll (A cs : List Str) :
    (classRemoveAll cs A).filter (fun c => A.contains c) = [] := by
  rw [List.filter_eq_nil_iff]
  intro a ha
  rw [classRemoveAll, List.mem_filter] at ha
  simpa using ha.2

theorem not_mem_classRemoveAll (A cs : List Str) (n : Str) (hn : n ∈ A) :
    n ∉ classRemoveAll cs A := by
  intro hmem
  rw [classRemoveAll] at hmem
  simp [List.mem_filter] at hmem
  exact hmem.2 hn

/-- C4 (amended): after `applyTheme` of a non-empty theme whose resolved name
has a truthy DOM value (`value[resolved]` with a map, `resolved` itself
without), the root reflects exactly that one value: in class mode, provided
the value is among the known attribute values, it is the unique such class on
the root; in attribute mode the attribute holds exactly it.  (Without these
provisos the root can be left with no theme value at all, see the
counterexample.) -/
theorem c4_exactly_one_resolved_value (cfg : Config) (dark : Bool) (t : Str) (d : DomState)
    (n : Str) (ht : t ≠ []) (hn : domName cfg (resolveTheme cfg dark t) = some n)
    (hne : n ≠ []) :
    (cfg.attrName = str "class" → n ∈ attrsOf cfg →
      ((applyTheme cfg dark (some t) d).classes.filter (fun c => (attrsOf cfg).contains c))
        = [n])
    ∧ (cfg.attrName ≠ str "class" → (applyTheme cfg dark (some t) d).attrVal = some n) := by
  have htr : truthy (some n) = true := (truthy_some_true_iff n).2 hne
  constructor
  · intro hcl hmem
    have hclasses : (applyTheme cfg dark (some t) d).classes
        = classAdd (classRemoveAll d.classes (attrsOf cfg)) n := by
      simp only [applyTheme, writeRootApply, hn, htr, if_pos hcl, if_neg ht]
      split <;> simp
    rw [hclasses, classAdd]
    have hnotmem := not_mem_classRemoveAll (attrsOf cfg) d.classes n hmem
    rw [if_neg hnotmem, List.filter_append]
    rw [filter_contains_classRemoveAll]
    simp [List.filter_cons, hmem]
  · intro hcl
    have hattr : (applyTheme cfg dark (some t) d).attrVal = some n := by
      simp only [applyTheme, writeRootApply, hn, htr, if_neg hcl, if_neg ht]
      split <;> simp
    exact hattr

theorem c4_witness :
    str "dark" ≠ ([] : Str)
    ∧ ((applyTheme ⟨true, false, false, str "class", none, str "dark",
          [str "light", str "dark"]⟩ true (some (str "dark")) pristine).classes.filter
        (fun c => (attrsOf ⟨true, false, false, str "class", none, str "dark",
          [str "light", str "dark"]⟩).contains c)) = [str "dark"] :=
  ⟨by decide,
   (c4_exactly_one_resolved_value
      ⟨true, false, false, str "class", none, str "dark", [str "light", str "dark"]⟩
      true (str "dark") pristine (str "dark") (by decide) (by decide) (by decide)).1
      rfl (by decide)⟩

/-- C4 (counterexample to the claim as stated): with the value map
`{light: 'l'}` the resolvable theme `'dark'` has no mapped value, and
`applyTheme` removes the configured attribute, leaving the root with *no*
resolved value rather than exactly one. -/
theorem c4_counterexample :
    (applyTheme ⟨true, false, false, str "data-theme", some [(str "light", str "l")],
        str "light", [str "light", str "dark"]⟩
      true (some (str "dark")) pristine).attrVal = none := by decide

def rootWritten (cfg : Config) (d : DomState) : Bool :=
  if cfg.attrName = str "class" then !d.classes.isEmpty else d.attrVal.isSome

theorem writeRootApply_csWrites (cfg : Config) (name : Option Str) (d : DomState) :
    (writeRootApply cfg name d).csWrites = d.csWrites := by
  unfold writeRootApply
  split <;> split <;> rfl

theorem fallback_csWrites_ge (cfg : Config) (e : Option Str) (d : DomState) :
    d.csWrites ≤ (fallbackColorScheme cfg e d).csWrites := by
  unfold fallbackColorScheme
  split
  · exact Nat.le_refl _
  · split <;> (try split) <;> simp [Nat.le_succ]
  
theorem runUpdateDOM_csWrites_system (cfg : Config) (hcs : cfg.enableColorScheme = true)
    (n : Str) (hn : colorSchemes.contains n = true) (d : DomState) :
    (runUpdateDOM cfg n true d).csWrites = d.csWrites + 1 := by
  unfold runUpdateDOM
  simp only [hcs, hn, Bool.and_self, Bool.and_true, if_true]
  split <;> (try dsimp only) <;> split <;> rfl

theorem runLiteralWrite_throw (cfg : Config) (e : Str) (d : DomState)
    (h : (runLiteralWrite cfg e d).2 = true) :
    (runLiteralWrite cfg e d).1 = d ∧ cfg.attrName = str "class" := by
  unfold runLiteralWrite at h ⊢
  cases hv : cfg.value with
  | none =>
    by_cases hc : cfg.attrName = str "class"
    · by_cases he : e = [] <;> simp_all
    · simp_all
  | some m =>
    by_cases hc : cfg.attrName = str "class"
    · cases hl : lookupMap m e with
      | none => simp_all
      | some v => by_cases hve : v = [] <;> simp_all
    · by_cases ht : truthy (lookupMap m (str "x[e]")) = true <;> simp_all

theorem fallback_csWrites_lightdark (cfg : Config) (hcs : cfg.enableColorScheme = true)
    (e : Option Str) (he : e = some (str "light") ∨ e = some (str "dark")) (d : DomState) :
    (fallbackColorScheme cfg e d).csWrites = d.csWrites + 1 := by
  unfold fallbackColorScheme
  simp only [hcs]
  rcases he with he | he <;> simp [he] <;> split <;> rfl

theorem fallback_csWrites_falsy (cfg : Config) (hcs : cfg.enableColorScheme = true)
    (hd : colorSchemes.contains cfg.defaultTheme = true)
    (e : Option Str) (he : truthy e = false) (d : DomState) :
    (fallbackColorScheme cfg e d).csWrites = d.csWrites + 1 := by
  have hd2 : cfg.defaultTheme ∈ colorSchemes := (contains_eq_mem _ _).1 hd
  unfold fallbackColorScheme
  simp [hcs, hd2, he]

theorem runScript_system_path (cfg : Config) (stored : Option Str) (dark : Bool) (d : DomState)
    (hes : cfg.enableSystem = true)
    (hcnd : stored = some (str "system") ∨ (¬ truthy stored ∧ cfg.defaultTheme = str "system")) :
    runScript cfg none true stored dark d
      = fallbackColorScheme cfg stored
          (runUpdateDOM cfg (getSystemTheme dark) true (runOptimization cfg d)) := by
  unfold runScript
  rw [if_neg (show ¬ truthy (none : Option Str) = true from by decide)]
  rw [if_neg (show ¬ (!true) = true from by decide)]
  rw [if_pos hes, if_pos hcnd]

theorem runScript_literal_path (cfg : Config) (stored : Option Str) (dark : Bool) (d : DomState)
    (htr : truthy stored = true)
    (hnc : cfg.enableSystem = true →
      ¬ (stored = some (str "system") ∨ (¬ truthy stored ∧ cfg.defaultTheme = str "system"))) :
    runScript cfg none true stored dark d
      = (match runLiteralWrite cfg (stored.getD []) (runOptimization cfg d) with
         | (d1, true) => d1
         | (d1, false) => fallbackColorScheme cfg stored d1) := by
  unfold runScript
  rw [if_neg (show ¬ truthy (none : Option Str) = true from by decide)]
  rw [if_neg (show ¬ (!true) = true from by decide)]
  by_cases hes : cfg.enableSystem = true
  · rw [if_pos hes, if_neg (hnc hes), if_pos htr]
  · rw [if_neg hes, if_pos htr]

theorem runScript_default_path (cfg : Config) (stored : Option Str) (dark : Bool) (d : DomState)
    (hfal : truthy stored = false)
    (hnsys : cfg.enableSystem = true → cfg.defaultTheme ≠ str "system") :
    runScript cfg none true stored dark d
      = fallbackColorScheme cfg stored
          (runUpdateDOM cfg cfg.defaultTheme false (runOptimization cfg d)) := by
  unfold runScript
  rw [if_neg (show ¬ truthy (none : Option Str) = true from by decide)]
  rw [if_neg (show ¬ (!true) = true from by decide)]
  by_cases hes : cfg.enableSystem = true
  · have h1 : ¬ (stored = some (str "system")
        ∨ (¬ truthy stored ∧ cfg.defaultTheme = str "system")) := by
      rintro (h | ⟨_, h⟩)
      · rw [h] at hfal
        exact absurd hfal (by decide)
      · exact hnsys hes h
    rw [if_pos hes, if_neg h1, if_neg (show ¬ truthy stored = true from by simp [hfal])]
  · rw [if_neg hes]
    rw [if_neg (show ¬ truthy stored = true from by simp [hfal])]

/-- C5 (amended): whenever `applyTheme` is called with a truthy theme and
`enableColorScheme` is on, it assigns the color-scheme style in that same
call.  For the inline script, the color-scheme style is assigned in the same
run whenever the run writes a root value and the persisted value resolves
through the system path or is a light/dark literal or a light/dark default;
a stored theme outside `light`/`dark` can have its root value written with
the color-scheme style left untouched (see the counterexample). -/
theorem c5_colorscheme_updated_with_root_write (cfg : Config) (dark : Bool) :
    (∀ (theme : Option Str) (d : DomState), cfg.enableColorScheme = true →
      truthy theme = true → (applyTheme cfg dark theme d).csWrites = d.csWrites + 1)
    ∧ (∀ stored : Option Str, cfg.enableColorScheme = true →
        ((cfg.enableSystem = true ∧ (stored = some (str "system")
            ∨ (truthy stored = false ∧ cfg.defaultTheme = str "system")))
          ∨ stored = some (str "light") ∨ stored = some (str "dark")
          ∨ (truthy stored = false
              ∧ (cfg.defaultTheme = str "light" ∨ cfg.defaultTheme = str "dark"))) →
        rootWritten cfg (runScript cfg none true stored dark pristine) = true →
        1 ≤ (runScript cfg none true stored dark pristine).csWrites) := by
  constructor
  · intro theme d hcs htr
    cases theme with
    | none => simp [truthy] at htr
    | some t =>
      have hne : t ≠ [] := (truthy_some_true_iff t).1 htr
      simp only [applyTheme, if_neg hne, hcs, if_true]
      simp [writeRootApply_csWrites]
  · intro stored hcs hcond hroot
    rcases hcond with ⟨hes, hsys⟩ | h1 | h1 | ⟨hfal, hld⟩
    · have hcnd : stored = some (str "system")
          ∨ (¬ truthy stored ∧ cfg.defaultTheme = str "system") := by
        rcases hsys with h | ⟨h, h2⟩
        · exact Or.inl h
        · exact Or.inr ⟨by simp [h], h2⟩
      rw [runScript_system_path cfg stored dark pristine hes hcnd] at hroot ⊢
      have h2 := runUpdateDOM_csWrites_system cfg hcs (getSystemTheme dark)
        (by cases dark <;> decide) (runOptimization cfg pristine)
      have h3 := fallback_csWrites_ge cfg stored
        (runUpdateDOM cfg (getSystemTheme dark) true (runOptimization cfg pristine))
      omega
    · have htr : truthy stored = true := by rw [h1]; decide
      have hnc : cfg.enableSystem = true →
          ¬ (stored = some (str "system")
            ∨ (¬ truthy stored ∧ cfg.defaultTheme = str "system")) := by
        intro _
        rintro (h | ⟨h, _⟩)
        · rw [h1] at h
          exact absurd h (by decide)
        · exact h htr
      rw [runScript_literal_path cfg stored dark pristine htr hnc] at hroot ⊢
      cases hrl : runLiteralWrite cfg (stored.getD []) (runOptimization cfg pristine) with
      | mk d1 thrown =>
        cases thrown with
        | true =>
          exfalso
          have hth := runLiteralWrite_throw cfg (stored.getD []) (runOptimization cfg pristine)
            (by rw [hrl])
          rw [hrl] at hth
          rw [hrl] at hroot
          simp only at hth hroot
          rw [hth.1] at hroot
          rw [rootWritten, if_pos hth.2] at hroot
          simp [runOptimization, hth.2, classRemoveAll, pristine] at hroot
        | false =>
          simp only at hroot ⊢
          rw [fallback_csWrites_lightdark cfg hcs stored (Or.inl h1)]
          omega
    · have htr : truthy stored = true := by rw [h1]; decide
      have hnc : cfg.enableSystem = true →
          ¬ (stored = some (str "system")
            ∨ (¬ truthy stored ∧ cfg.defaultTheme = str "system")) := by
        intro _
        rintro (h | ⟨h, _⟩)
        · rw [h1] at h
          exact absurd h (by decide)
        · exact h htr
      rw [runScript_literal_path cfg stored dark pristine htr hnc] at hroot ⊢
      cases hrl : runLiteralWrite cfg (stored.getD []) (runOptimization cfg pristine) with
      | mk d1 thrown =>
        cases thrown with
        | true =>
          exfalso
          have hth := runLiteralWrite_throw cfg (stored.getD []) (runOptimization cfg pristine)
            (by rw [hrl])
          rw [hrl] at hth
          rw [hrl] at hroot
          simp only at hth hroot
          rw [hth.1] at hroot
          rw [rootWritten, if_pos hth.2] at hroot
          simp [runOptimization, hth.2, classRemoveAll, pristine] at hroot
        | false =>
          simp only at hroot ⊢
          rw [fallback_csWrites_lightdark cfg hcs stored (Or.inr h1)]
          omega
    · have hnsys : cfg.enableSystem = true → cfg.defaultTheme ≠ str "system" := by
        intro _
        rcases hld with h | h <;> rw [h] <;> decide
      rw [runScript_default_path cfg stored dark pristine hfal hnsys]
      have hd : colorSchemes.contains cfg.defaultTheme = true := by
        rcases hld with h | h <;> rw [h] <;> decide
      rw [fallback_csWrites_falsy cfg hcs hd stored hfal]
      omega


theorem c5_witness :
    (applyTheme ⟨true, false, true, str "data-theme", none, str "light",
        [str "light", str "dark"]⟩ true (some (str "dark")) pristine).csWrites
      = pristine.csWrites + 1
    ∧ 1 ≤ (runScript ⟨true, false, true, str "data-theme", none, str "light",
        [str "light", str "dark"]⟩ none true (some (str "light")) true pristine).csWrites :=
  ⟨(c5_colorscheme_updated_with_root_write
      ⟨true, false, true, str "data-theme", none, str "light", [str "light", str "dark"]⟩
      true).1 (some (str "dark")) pristine rfl (by decide),
   (c5_colorscheme_updated_with_root_write
      ⟨true, false, true, str "data-theme", none, str "light", [str "light", str "dark"]⟩
      true).2 (some (str "light")) rfl (Or.inr (Or.inl rfl)) (by decide)⟩

/-- C5 (counterexample to the claim as stated): with `enableColorScheme` on,
a persisted preference `'purple'` makes the inline script write the root
attribute while never assigning the color-scheme style. -/
theorem c5_counterexample :
    (runScript ⟨true, false, true, str "data-theme", none, str "dark",
        [str "light", str "dark"]⟩ none true (some (str "purple")) true pristine).attrVal
      = some (str "purple")
    ∧ (runScript ⟨true, false, true, str "data-theme", none, str "dark",
        [str "light", str "dark"]⟩ none true (some (str "purple")) true pristine).csWrites
      = 0 := by
  constructor
  · decide
  · decide

theorem mem_addIfAbsent (l : List Str) (x y : Str) :
    y ∈ addIfAbsent l x ↔ y ∈ l ∨ y = x := by
  unfold addIfAbsent
  split
  · rename_i h
    constructor
    · exact Or.inl
    · rintro (hy | rfl)
      · exact hy
      · exact h
  · simp

theorem nodup_addIfAbsent (l : List Str) (x : Str) (h : l.Nodup) :
    (addIfAbsent l x).Nodup := by
  unfold addIfAbsent
  split
  · exact h
  · rename_i hx
    simp [List.nodup_append, h, hx]

theorem mem_foldl_addIfAbsent (l : List Str) (init : List Str) (y : Str) :
    y ∈ l.foldl addIfAbsent init ↔ y ∈ init ∨ y ∈ l := by
  induction l generalizing init with
  | nil => simp
  | cons x l ih =>
    rw [List.foldl_cons, ih, mem_addIfAbsent]
    simp [List.mem_cons]
    tauto

theorem nodup_foldl_addIfAbsent (l : List Str) (init : List Str) (h : init.Nodup) :
    (l.foldl addIfAbsent init).Nodup := by
  induction l generalizing init with
  | nil => exact h
  | cons x l ih => exact ih _ (nodup_addIfAbsent _ _ h)

theorem mem_dedup (l : List Str) (y : Str) : y ∈ dedup l ↔ y ∈ l := by
  rw [dedup, mem_foldl_addIfAbsent]
  simp

theorem nodup_dedup (l : List Str) : (dedup l).Nodup :=
  nodup_foldl_addIfAbsent l [] List.nodup_nil

theorem mem_foldl_addIfAbsent_append (ks : List Str) (init : List Str) (y : Str) :
    y ∈ ks.foldl (fun s k => addIfAbsent s (str "system" ++ k)) init
      ↔ y ∈ init ∨ ∃ k ∈ ks, y = str "system" ++ k := by
  induction ks generalizing init with
  | nil => simp
  | cons k ks ih =>
    rw [List.foldl_cons, ih, mem_addIfAbsent]
    simp only [List.mem_cons]
    constructor
    · rintro ((hy | rfl) | ⟨k2, hk2, rfl⟩)
      · exact Or.inl hy
      · exact Or.inr ⟨k, Or.inl rfl, rfl⟩
      · exact Or.inr ⟨k2, Or.inr hk2, rfl⟩
    · rintro (hy | ⟨k2, (rfl | hk2), rfl⟩)
      · exact Or.inl (Or.inl hy)
      · exact Or.inl (Or.inr rfl)
      · exact Or.inr ⟨k2, hk2, rfl⟩

theorem nodup_foldl_addIfAbsent_append (ks : List Str) (init : List Str) (h : init.Nodup) :
    (ks.foldl (fun s k => addIfAbsent s (str "system" ++ k)) init).Nodup := by
  induction ks generalizing init with
  | nil => exact h
  | cons k ks ih => exact ih _ (nodup_addIfAbsent _ _ h)

/-- The flags recorded for key `k` (first matching entry; keys stay unique). -/
def flagsOf : List (Str × Bool × Bool) → Str → Bool × Bool
  | [], _ => (false, false)
  | e :: rest, k => if e.1 = k then (e.2.1, e.2.2) else flagsOf rest k

def lightFor (k : Str) (t : Str) : Bool := (keyOf t == some k) && isLightSide t

def darkFor (k : Str) (t : Str) : Bool := (keyOf t == some k) && isDarkSide t

theorem flagsOf_updateEntry (m : List (Str × Bool × Bool)) (k k' : Str) (lf df : Bool) :
    flagsOf (updateEntry m k lf df) k'
      = if k' = k then ((flagsOf m k).1 || lf, (flagsOf m k).2 || df)
        else flagsOf m k' := by
  induction m with
  | nil =>
    by_cases h : k' = k
    · subst h
      simp [updateEntry, flagsOf]
    · have h' : ¬ k = k' := fun hh => h hh.symm
      simp [updateEntry, flagsOf, h, h']
  | cons e rest ih =>
    by_cases h1 : e.1 = k
    · by_cases h2 : k' = k
      · subst h2
        simp [updateEntry, flagsOf, h1]
      · have hkk : ¬ k = k' := fun hh => h2 hh.symm
        have he' : ¬ e.1 = k' := by rw [h1]; exact hkk
        simp [updateEntry, flagsOf, h1, h2, hkk, he']
    · by_cases h2 : e.1 = k'
      · have hk'k : ¬ k' = k := by rw [← h2]; exact h1
        simp [updateEntry, flagsOf, h1, h2, hk'k]
      · simp [updateEntry, flagsOf, h1, h2, ih]

theorem flagsOf_foldl_step (l : List Str) (acc : List (Str × Bool × Bool)) (k : Str) :
    flagsOf (l.foldl
      (fun acc t =>
        match keyOf t with
        | none => acc
        | some k0 => updateEntry acc k0 (isLightSide t) (isDarkSide t)) acc) k
      = ((flagsOf acc k).1 || l.any (lightFor k), (flagsOf acc k).2 || l.any (darkFor k)) := by
  induction l generalizing acc with
  | nil => simp
  | cons t l ih =>
    rw [List.foldl_cons, ih]
    cases hk : keyOf t with
    | none =>
      have hl : lightFor k t = false := by simp [lightFor, hk]
      have hd : darkFor k t = false := by simp [darkFor, hk]
      simp [List.any_cons, hl, hd]
    | some k0 =>
      by_cases he : k = k0
      · subst he
        have hl : lightFor k t = isLightSide t := by simp [lightFor, hk]
        have hd : darkFor k t = isDarkSide t := by simp [darkFor, hk]
        rw [flagsOf_updateEntry]
        simp [List.any_cons, hl, hd, Bool.or_assoc]
      · have he' : ¬ k0 = k := fun hh => he hh.symm
        have hl : lightFor k t = false := by simp [lightFor, hk, he']
        have hd : darkFor k t = false := by simp [darkFor, hk, he']
        rw [flagsOf_updateEntry]
        simp [List.any_cons, hl, hd, he]

theorem flagsOf_collect (l : List Str) (k : Str) :
    flagsOf (collectSystemFlags l) k = (l.any (lightFor k), l.any (darkFor k)) := by
  rw [collectSystemFlags, flagsOf_foldl_step]
  simp [flagsOf]

theorem keys_updateEntry (m : List (Str × Bool × Bool)) (k : Str) (lf df : Bool) :
    (updateEntry m k lf df).map (·.1)
      = if k ∈ m.map (·.1) then m.map (·.1) else m.map (·.1) ++ [k] := by
  induction m with
  | nil => simp [updateEntry]
  | cons e rest ih =>
    by_cases h1 : e.1 = k
    · simp [updateEntry, h1]
    · have h1' : ¬ k = e.1 := fun hh => h1 hh.symm
      simp [updateEntry, h1, h1', ih]
      split <;> simp

theorem keysNodup_updateEntry (m : List (Str × Bool × Bool)) (k : Str) (lf df : Bool)
    (h : (m.map (·.1)).Nodup) : ((updateEntry m k lf df).map (·.1)).Nodup := by
  rw [keys_updateEntry]
  split
  · exact h
  · rename_i hk
    simp [List.nodup_append, h, hk]

theorem keysNodup_collect (l : List Str) :
    ((collectSystemFlags l).map (·.1)).Nodup := by
  rw [collectSystemFlags]
  have main : ∀ (acc : List (Str × Bool × Bool)), (acc.map (·.1)).Nodup →
      ((l.foldl
        (fun acc t =>
          match keyOf t with
          | none => acc
          | some k0 => updateEntry acc k0 (isLightSide t) (isDarkSide t)) acc).map (·.1)).Nodup := by
    induction l with
    | nil => intro acc h; exact h
    | cons t l ih =>
      intro acc h
      rw [List.foldl_cons]
      cases hk : keyOf t with
      | none => simp only [hk]; exact ih acc h
      | some k0 => simp only [hk]; exact ih _ (keysNodup_updateEntry acc k0 _ _ h)
  exact main [] (by simp)

theorem flagsOf_of_mem (m : List (Str × Bool × Bool)) (e : Str × Bool × Bool)
    (hN : (m.map (·.1)).Nodup) (hm : e ∈ m) : flagsOf m e.1 = (e.2.1, e.2.2) := by
  induction m with
  | nil => cases hm
  | cons h rest ih =>
    rcases List.mem_cons.1 hm with rfl | hm2
    · simp [flagsOf]
    · have hN' := hN
      simp only [List.map_cons, List.nodup_cons] at hN'
      have hN2 : (rest.map (·.1)).Nodup := hN'.2
      have hne : ¬ h.1 = e.1 := by
        intro hh
        apply hN'.1
        rw [hh]
        exact List.mem_map.2 ⟨e, hm2, rfl⟩
      simp [flagsOf, hne, ih hN2 hm2]

theorem mem_systemSuffixes (l : List Str) (k : Str) :
    k ∈ systemSuffixes l ↔ flagsOf (collectSystemFlags l) k = (true, true) := by
  constructor
  · intro hk
    rw [systemSuffixes] at hk
    rcases List.mem_map.1 hk with ⟨e, he, rfl⟩
    rcases List.mem_filter.1 he with ⟨hmem, hflag⟩
    have := flagsOf_of_mem (collectSystemFlags l) e (keysNodup_collect l) hmem
    rw [this]
    have h2 := Bool.and_eq_true_iff.1 hflag
    rw [h2.1, h2.2]
  · intro hf
    rw [systemSuffixes]
    -- find the entry with key k
    have main : ∀ (m : List (Str × Bool × Bool)), flagsOf m k = (true, true) →
        k ∈ (m.filter (fun e => e.2.1 && e.2.2)).map (·.1) := by
      intro m
      induction m with
      | nil => intro h; simp [flagsOf] at h
      | cons e rest ih =>
        intro h
        by_cases h1 : e.1 = k
        · rw [flagsOf, if_pos h1] at h
          have h2 : e.2.1 = true ∧ e.2.2 = true := by
            constructor
            · exact congrArg Prod.fst h
            · exact congrArg Prod.snd h
          refine List.mem_map.2 ⟨e, ?_, h1⟩
          exact List.mem_filter.2 ⟨List.mem_cons_self e rest, by rw [h2.1, h2.2]; rfl⟩
        · rw [flagsOf, if_neg h1] at h
          have := ih h
          rcases List.mem_map.1 this with ⟨e2, he2, rfl⟩
          refine List.mem_map.2 ⟨e2, ?_, rfl⟩
          rcases List.mem_filter.1 he2 with ⟨hm2, hf2⟩
          exact List.mem_filter.2 ⟨List.mem_cons_of_mem e hm2, hf2⟩
    exact main _ hf

theorem keyOf_light_append (suf : Str) : keyOf (str "light-" ++ suf) = some ('-' :: suf) := by
  have hpre : (str "light-").isPrefixOf (str "light-" ++ suf) = true := by
    rw [List.isPrefixOf_iff_prefix]
    exact List.prefix_append _ _
  have hcons : str "light-" ++ suf = 'l' :: 'i' :: 'g' :: 'h' :: 't' :: '-'::suf := rfl
  rw [keyOf, hpre]
  simp only [Bool.true_or, if_true]
  rw [hcons]
  simp [List.dropWhile]

theorem keyOf_dark_append (suf : Str) : keyOf (str "dark-" ++ suf) = some ('-' :: suf) := by
  have hpre : (str "dark-").isPrefixOf (str "dark-" ++ suf) = true := by
    rw [List.isPrefixOf_iff_prefix]
    exact List.prefix_append _ _
  have hcons : str "dark-" ++ suf = 'd' :: 'a' :: 'r' :: 'k' :: '-'::suf := rfl
  rw [keyOf, hpre]
  simp only [Bool.or_true, if_true]
  rw [hcons]
  simp [List.dropWhile]

theorem lightFor_iff (k t : Str) :
    lightFor k t = true ↔
      (t = str "light" ∧ k = []) ∨ (∃ suf, k = '-' :: suf ∧ t = str "light-" ++ suf) := by
  constructor
  · intro h
    rcases Bool.and_eq_true_iff.1 h with ⟨h1, h2⟩
    rw [beq_iff_eq] at h1
    rw [isLightSide] at h2
    rcases Bool.or_eq_true_iff.1 h2 with h2 | h2
    · rw [decide_eq_true_iff] at h2
      subst h2
      have : keyOf (str "light") = some [] := by decide
      rw [this] at h1
      exact Or.inl ⟨rfl, (Option.some.inj h1).symm⟩
    · rw [List.isPrefixOf_iff_prefix] at h2
      obtain ⟨suf, rfl⟩ := h2
      rw [keyOf_light_append] at h1
      exact Or.inr ⟨suf, (Option.some.inj h1).symm, rfl⟩
  · rintro (⟨rfl, rfl⟩ | ⟨suf, rfl, rfl⟩)
    · decide
    · have hpre : (str "light-").isPrefixOf (str "light-" ++ suf) = true := by
        rw [List.isPrefixOf_iff_prefix]
        exact List.prefix_append _ _
      rw [lightFor, keyOf_light_append]
      simp [isLightSide, hpre]

theorem darkFor_iff (k t : Str) :
    darkFor k t = true ↔
      (t = str "dark" ∧ k = []) ∨ (∃ suf, k = '-' :: suf ∧ t = str "dark-" ++ suf) := by
  constructor
  · intro h
    rcases Bool.and_eq_true_iff.1 h with ⟨h1, h2⟩
    rw [beq_iff_eq] at h1
    rw [isDarkSide] at h2
    rcases Bool.or_eq_true_iff.1 h2 with h2 | h2
    · rw [decide_eq_true_iff] at h2
      subst h2
      have : keyOf (str "dark") = some [] := by decide
      rw [this] at h1
      exact Or.inl ⟨rfl, (Option.some.inj h1).symm⟩
    · rw [List.isPrefixOf_iff_prefix] at h2
      obtain ⟨suf, rfl⟩ := h2
      rw [keyOf_dark_append] at h1
      exact Or.inr ⟨suf, (Option.some.inj h1).symm, rfl⟩
  · rintro (⟨rfl, rfl⟩ | ⟨suf, rfl, rfl⟩)
    · decide
    · have hpre : (str "dark-").isPrefixOf (str "dark-" ++ suf) = true := by
        rw [List.isPrefixOf_iff_prefix]
        exact List.prefix_append _ _
      rw [darkFor, keyOf_dark_append]
      simp [isDarkSide, hpre]

theorem any_lightFor (l : List Str) (k : Str) :
    l.any (lightFor k) = true ↔
      ((k = [] ∧ str "light" ∈ l) ∨ ∃ suf, k = '-' :: suf ∧ str "light-" ++ suf ∈ l) := by
  rw [List.any_eq_true]
  constructor
  · rintro ⟨t, ht, hf⟩
    rcases (lightFor_iff k t).1 hf with ⟨rfl, rfl⟩ | ⟨suf, rfl, rfl⟩
    · exact Or.inl ⟨rfl, ht⟩
    · exact Or.inr ⟨suf, rfl, ht⟩
  · rintro (⟨rfl, hl⟩ | ⟨suf, rfl, hl⟩)
    · exact ⟨_, hl, (lightFor_iff _ _).2 (Or.inl ⟨rfl, rfl⟩)⟩
    · exact ⟨_, hl, (lightFor_iff _ _).2 (Or.inr ⟨suf, rfl, rfl⟩)⟩

theorem any_darkFor (l : List Str) (k : Str) :
    l.any (darkFor k) = true ↔
      ((k = [] ∧ str "dark" ∈ l) ∨ ∃ suf, k = '-' :: suf ∧ str "dark-" ++ suf ∈ l) := by
  rw [List.any_eq_true]
  constructor
  · rintro ⟨t, ht, hf⟩
    rcases (darkFor_iff k t).1 hf with ⟨rfl, rfl⟩ | ⟨suf, rfl, rfl⟩
    · exact Or.inl ⟨rfl, ht⟩
    · exact Or.inr ⟨suf, rfl, ht⟩
  · rintro (⟨rfl, hl⟩ | ⟨suf, rfl, hl⟩)
    · exact ⟨_, hl, (darkFor_iff _ _).2 (Or.inl ⟨rfl, rfl⟩)⟩
    · exact ⟨_, hl, (darkFor_iff _ _).2 (Or.inr ⟨suf, rfl, rfl⟩)⟩

theorem mem_systemSuffixes_iff (themes : List Str) (k : Str) :
    k ∈ systemSuffixes themes ↔
      (((k = [] ∧ str "light" ∈ themes)
          ∨ ∃ suf, k = '-' :: suf ∧ str "light-" ++ suf ∈ themes)
        ∧ ((k = [] ∧ str "dark" ∈ themes)
          ∨ ∃ suf, k = '-' :: suf ∧ str "dark-" ++ suf ∈ themes)) := by
  rw [mem_systemSuffixes, flagsOf_collect, Prod.mk.injEq, any_lightFor, any_darkFor]

/-- C3: the published themes collection contains each configured theme plus
`'system'` without duplicates when `enableSystem` is on; with
`enableMultipleSystemThemes` additionally on, it consists of the configured
themes, `'system'`, and exactly those `'system-<suffix>'` entries whose
light and dark variants are both configured; with `enableSystem` off it
equals the configured list. -/
theorem c3_provider_themes_shape (enableSystem eMST : Bool) (themes : List Str) :
    (enableSystem = false → providerThemes enableSystem eMST themes = themes)
    ∧ (enableSystem = true →
        (∀ t ∈ themes, t ∈ providerThemes enableSystem eMST themes)
        ∧ str "system" ∈ providerThemes enableSystem eMST themes
        ∧ (providerThemes enableSystem eMST themes).Nodup)
    ∧ (enableSystem = true → eMST = true →
        ∀ x : Str, x ∈ providerThemes enableSystem eMST themes ↔
          (x ∈ themes ∨ x = str "system"
            ∨ ∃ suf : Str, x = str "system-" ++ suf
                ∧ str "light-" ++ suf ∈ themes ∧ str "dark-" ++ suf ∈ themes)) := by
  refine ⟨?_, ?_, ?_⟩
  · intro h
    rw [providerThemes, h]
    simp
  · intro hes
    rw [providerThemes, hes]
    simp only [Bool.not_true, Bool.false_eq_true, if_false]
    have hbase : ∀ y : Str, y ∈ addIfAbsent (dedup themes) (str "system")
        ↔ y ∈ themes ∨ y = str "system" := by
      intro y
      rw [mem_addIfAbsent, mem_dedup]
    have hbaseN : (addIfAbsent (dedup themes) (str "system")).Nodup :=
      nodup_addIfAbsent _ _ (nodup_dedup themes)
    by_cases hm : eMST = true
    · rw [if_pos hm]
      refine ⟨?_, ?_, ?_⟩
      · intro t ht
        rw [mem_foldl_addIfAbsent_append]
        exact Or.inl ((hbase t).2 (Or.inl ht))
      · rw [mem_foldl_addIfAbsent_append]
        exact Or.inl ((hbase _).2 (Or.inr rfl))
      · exact nodup_foldl_addIfAbsent_append _ _ hbaseN
    · rw [if_neg hm]
      refine ⟨?_, ?_, ?_⟩
      · intro t ht
        exact (hbase t).2 (Or.inl ht)
      · exact (hbase _).2 (Or.inr rfl)
      · exact hbaseN
  · intro hes hm x
    rw [providerThemes, hes]
    simp only [Bool.not_true, Bool.false_eq_true, if_false]
    rw [if_pos hm]
    rw [mem_foldl_addIfAbsent_append, mem_addIfAbsent, mem_dedup]
    constructor
    · rintro ((hx | rfl) | ⟨k, hk, rfl⟩)
      · exact Or.inl hx
      · exact Or.inr (Or.inl rfl)
      · rcases (mem_systemSuffixes_iff themes k).1 hk with ⟨hlight, hdark⟩
        rcases hlight with ⟨rfl, _⟩ | ⟨suf, rfl, hl⟩
        · exact Or.inr (Or.inl rfl)
        · rcases hdark with ⟨hnil, _⟩ | ⟨suf2, heq, hd⟩
          · exact absurd hnil (by simp)
          · have hsuf : suf2 = suf := by
              injection heq with _ h
              exact h.symm
            subst hsuf
            refine Or.inr (Or.inr ⟨suf2, rfl, hl, hd⟩)
    · rintro (hx | rfl | ⟨suf, rfl, hl, hd⟩)
      · exact Or.inl (Or.inl hx)
      · exact Or.inl (Or.inr rfl)
      · refine Or.inr ⟨'-' :: suf, ?_, rfl⟩
        rw [mem_systemSuffixes_iff]
        exact ⟨Or.inr ⟨suf, rfl, hl⟩, Or.inr ⟨suf, rfl, hd⟩⟩

theorem c3_witness :
    providerThemes false true [str "light", str "dark"] = [str "light", str "dark"]
    ∧ str "system"
        ∈ providerThemes true true [str "light", str "dark", str "light-a", str "dark-a"]
    ∧ str "system-a"
        ∈ providerThemes true true [str "light", str "dark", str "light-a", str "dark-a"] :=
  ⟨(c3_provider_themes_shape false true [str "light", str "dark"]).1 rfl,
   ((c3_provider_themes_shape true true
      [str "light", str "dark", str "light-a", str "dark-a"]).2.1 rfl).2.1,
   ((c3_provider_themes_shape true true
      [str "light", str "dark", str "light-a", str "dark-a"]).2.2 rfl rfl
      (str "system-a")).2
     (Or.inr (Or.inr ⟨str "a", by decide, by decide, by decide⟩))⟩

/-- The attribute/class part of the document root (ignoring color-scheme). -/
def rootPair (d : DomState) : List Str × Option Str := (d.classes, d.attrVal)

theorem rootPair_fallback (cfg : Config) (e : Option Str) (d : DomState) :
    rootPair (fallbackColorScheme cfg e d) = rootPair d := by
  unfold fallbackColorScheme
  split
  · rfl
  · split
    · split <;> rfl
    · split <;> rfl

theorem runOptimization_pristine (cfg : Config) : runOptimization cfg pristine = pristine := by
  rw [runOptimization]
  split <;> rfl

theorem rootPair_runUpdateDOM (cfg : Config) (n : Str) (sc : Bool) :
    rootPair (runUpdateDOM cfg n sc pristine)
      = rootPair (writeRootApply cfg (domName cfg n) pristine) := by
  unfold runUpdateDOM writeRootApply
  by_cases hcl : cfg.attrName = str "class" <;>
    by_cases htr : truthy (domName cfg n) = true <;>
      simp [hcl, htr, rootPair, classAdd, classRemoveAll, pristine] <;>
      split <;> simp

theorem rootPair_runLiteralWrite (cfg : Config) (e : Str) (he : e ≠ [])
    (hB : cfg.value = none ∨ cfg.attrName = str "class") :
    rootPair ((runLiteralWrite cfg e pristine).1)
      = rootPair (writeRootApply cfg (domName cfg e) pristine) := by
  unfold runLiteralWrite writeRootApply
  cases hv : cfg.value with
  | none =>
    have htr : truthy (domName cfg e) = true := by
      rw [domName, hv]
      exact (truthy_some_true_iff e).2 he
    rw [domName, hv] at htr ⊢
    by_cases hcl : cfg.attrName = str "class" <;>
      simp [hcl, he, htr, rootPair, classAdd, classRemoveAll, pristine]
  | some m =>
    have hcl : cfg.attrName = str "class" := by
      rcases hB with h | h
      · rw [h] at hv
        cases hv
      · exact h
    rw [domName, hv]
    cases hl : lookupMap m e with
    | none =>
      have htr : truthy (none : Option Str) = false := rfl
      simp [hcl, hl, htr, rootPair, classRemoveAll, pristine]
    | some v =>
      by_cases hve : v = []
      · subst hve
        simp [hcl, hl, rootPair, truthy, classRemoveAll, pristine]
      · have htr : truthy (some v) = true := (truthy_some_true_iff v).2 hve
        simp [hcl, hl, hve, htr, rootPair, classAdd, classRemoveAll, pristine]

theorem rootPair_applyTheme (cfg : Config) (dark : Bool) (t : Str) (ht : t ≠ []) :
    rootPair (applyTheme cfg dark (some t) pristine)
      = rootPair (writeRootApply cfg (domName cfg (resolveTheme cfg dark t)) pristine) := by
  simp only [applyTheme, if_neg ht]
  split <;> rfl

theorem resolveTheme_system (cfg : Config) (dark : Bool) (hes : cfg.enableSystem = true) :
    resolveTheme cfg dark (str "system") = getSystemTheme dark := by
  rw [resolveTheme, if_pos hes, if_pos rfl]

theorem resolveTheme_noSystem (cfg : Config) (dark : Bool) (t : Str)
    (hes : ¬ cfg.enableSystem = true) : resolveTheme cfg dark t = t := by
  rw [resolveTheme, if_neg hes]

theorem resolveTheme_plain (cfg : Config) (dark : Bool) (t : Str)
    (hns : t ≠ str "system")
    (hnc : ¬ (cfg.enableMultipleSystemThemes = true ∧ (str "system-").isPrefixOf t = true)) :
    resolveTheme cfg dark t = t := by
  rw [resolveTheme]
  by_cases hes : cfg.enableSystem = true
  · rw [if_pos hes, if_neg hns, if_neg]
    intro hand
    rcases Bool.and_eq_true_iff.1 hand with ⟨h1, h2⟩
    exact hnc ⟨h1, h2⟩
  · rw [if_neg hes]

/-- C1 (amended): starting from a pristine root, the inline script's
attribute/class write agrees with `applyTheme` on the same persisted
preference and media-query state, provided the effective preference does not
resolve through the compound `system-` rule (the script writes such
preferences literally), no value map is combined with a custom attribute
(there the script omits the write the provider would make), and the default
theme is non-empty. -/
theorem c1_script_agrees_with_applyTheme (cfg : Config) (stored : Option Str) (dark : Bool)
    (hA : ∀ t : Str, getTheme false true stored (some cfg.defaultTheme) = some t →
      ¬ (cfg.enableSystem = true ∧ cfg.enableMultipleSystemThemes = true
          ∧ (str "system-").isPrefixOf t = true))
    (hB : cfg.value = none ∨ cfg.attrName = str "class")
    (hC : cfg.defaultTheme ≠ []) :
    rootPair (runScript cfg none true stored dark pristine)
      = rootPair (applyTheme cfg dark (getTheme false true stored (some cfg.defaultTheme))
          pristine) := by
  have hget := getTheme_client stored (some cfg.defaultTheme)
  by_cases htr : truthy stored = true
  · -- a truthy stored preference is the effective theme
    rw [if_pos htr] at hget
    cases stored with
    | none => simp [truthy] at htr
    | some t =>
      have hne : t ≠ [] := (truthy_some_true_iff t).1 htr
      rw [hget, rootPair_applyTheme cfg dark t hne]
      by_cases hsys : t = str "system"
      · subst hsys
        by_cases hes : cfg.enableSystem = true
        · rw [runScript_system_path cfg _ dark pristine hes (Or.inl rfl)]
          rw [rootPair_fallback, runOptimization_pristine, rootPair_runUpdateDOM]
          rw [resolveTheme_system cfg dark hes]
        · rw [runScript_literal_path cfg _ dark pristine htr (fun h => absurd h hes)]
          rw [runOptimization_pristine]
          simp only [Option.getD_some]
          rw [resolveTheme_noSystem cfg dark _ hes]
          cases hrl : runLiteralWrite cfg (str "system") pristine with
          | mk d1 thrown =>
            have hlit := rootPair_runLiteralWrite cfg (str "system") (by decide) hB
            rw [hrl] at hlit
            cases thrown with
            | true =>
              simp only at hlit ⊢
              exact hlit
            | false =>
              simp only at hlit ⊢
              rw [rootPair_fallback]
              exact hlit
      · have hnc2 : cfg.enableSystem = true →
            ¬ ((some t : Option Str) = some (str "system")
              ∨ (¬ truthy (some t) ∧ cfg.defaultTheme = str "system")) := by
          intro _
          rintro (h | ⟨h, _⟩)
          · exact hsys (Option.some.inj h)
          · exact h htr
        rw [runScript_literal_path cfg _ dark pristine htr hnc2]
        rw [runOptimization_pristine]
        simp only [Option.getD_some]
        have hres : resolveTheme cfg dark t = t := by
          by_cases hes : cfg.enableSystem = true
          · apply resolveTheme_plain cfg dark t hsys
            intro hand
            exact hA t hget ⟨hes, hand.1, hand.2⟩
          · exact resolveTheme_noSystem cfg dark t hes
        rw [hres]
        cases hrl : runLiteralWrite cfg t pristine with
        | mk d1 thrown =>
          have hlit := rootPair_runLiteralWrite cfg t hne hB
          rw [hrl] at hlit
          cases thrown with
          | true =>
            simp only at hlit ⊢
            exact hlit
          | false =>
            simp only at hlit ⊢
            rw [rootPair_fallback]
            exact hlit
  · -- falsy stored: the default theme is the effective theme
    have htr2 : truthy stored = false := by
      cases h : truthy stored
      · rfl
      · exact absurd h htr
    rw [if_neg htr] at hget
    rw [hget, rootPair_applyTheme cfg dark cfg.defaultTheme hC]
    by_cases hsys : cfg.defaultTheme = str "system"
    · by_cases hes : cfg.enableSystem = true
      · rw [runScript_system_path cfg stored dark pristine hes (Or.inr ⟨htr, hsys⟩)]
        rw [rootPair_fallback, runOptimization_pristine, rootPair_runUpdateDOM]
        rw [hsys, resolveTheme_system cfg dark hes]
      · rw [runScript_default_path cfg stored dark pristine htr2 (fun h => absurd h hes)]
        rw [rootPair_fallback, runOptimization_pristine, rootPair_runUpdateDOM]
        rw [resolveTheme_noSystem cfg dark _ hes]
    · rw [runScript_default_path cfg stored dark pristine htr2 (fun _ => hsys)]
      rw [rootPair_fallback, runOptimization_pristine, rootPair_runUpdateDOM]
      have hres : resolveTheme cfg dark cfg.defaultTheme = cfg.defaultTheme := by
        by_cases hes : cfg.enableSystem = true
        · apply resolveTheme_plain cfg dark _ hsys
          intro hand
          exact hA cfg.defaultTheme hget ⟨hes, hand.1, hand.2⟩
        · exact resolveTheme_noSystem cfg dark _ hes
      rw [hres]

theorem c1_witness :
    rootPair (runScript ⟨true, false, true, str "data-theme", none, str "light",
        [str "light", str "dark"]⟩ none true (some (str "dark")) true pristine)
      = rootPair (applyTheme ⟨true, false, true, str "data-theme", none, str "light",
          [str "light", str "dark"]⟩ true
          (getTheme false true (some (str "dark")) (some (str "light"))) pristine) :=
  c1_script_agrees_with_applyTheme
    ⟨true, false, true, str "data-theme", none, str "light", [str "light", str "dark"]⟩
    (some (str "dark")) true
    (by
      intro t h
      have he : getTheme false true (some (str "dark")) (some (str "light"))
          = some (str "dark") := by decide
      rw [he] at h
      have ht := Option.some.inj h
      subst ht
      decide)
    (Or.inl rfl) (by decide)

/-- C1 (counterexample to the claim as stated): with
`enableMultipleSystemThemes` on and the persisted preference `'system-a'`,
the provider resolves and writes `'dark-a'` while the inline script writes
the literal `'system-a'`. -/
theorem c1_counterexample :
    rootPair (runScript ⟨true, true, false, str "data-theme", none, str "light",
        [str "light", str "dark", str "light-a", str "dark-a"]⟩ none true
        (some (str "system-a")) true pristine)
      ≠ rootPair (applyTheme ⟨true, true, false, str "data-theme", none, str "light",
          [str "light", str "dark", str "light-a", str "dark-a"]⟩ true
          (getTheme false true (some (str "system-a")) (some (str "light"))) pristine) := by
  decide
